import Mathlib

/-!
Verification development for the Sticker & Magnet Lab backend
(`database_setup.py`, `lambda_functions/create_order.py`,
`lambda_functions/get_pricing.py`).

Python `Decimal` values are modelled exactly as scaled integers: `Dec.mk v e`
stands for the decimal number `v / 10^e` (Python's `Decimal` with coefficient
`v` and exponent `-e`).  `quantize(Decimal('0.01'))` becomes an explicit
rounding function producing exponent 2: `quantize2HE` for the default context
rounding `ROUND_HALF_EVEN`, `quantize2HU` for `ROUND_HALF_UP`.
-/

set_option autoImplicit false

namespace StickerLab

/-- An exact decimal number: `val / 10 ^ exp`.  This is the shallow embedding of
Python `decimal.Decimal` (coefficient and negated exponent). -/
structure Dec where
  val : ℤ
  exp : ℕ
  deriving DecidableEq, Repr

/-- The rational value denoted by a `Dec`. -/
def Dec.toRat (d : Dec) : ℚ := (d.val : ℚ) / (10 : ℚ) ^ d.exp

/-- Exact `Decimal` multiplication (`__mul__`): coefficients multiply,
exponents add. -/
def dmul (a b : Dec) : Dec := ⟨a.val * b.val, a.exp + b.exp⟩

/-- Exact `Decimal` addition (`__add__`): align to the larger number of
decimal places and add coefficients. -/
def dadd (a b : Dec) : Dec :=
  ⟨a.val * 10 ^ (max a.exp b.exp - a.exp) + b.val * 10 ^ (max a.exp b.exp - b.exp),
   max a.exp b.exp⟩

/-- `Decimal.quantize(Decimal('0.01'))` under the default context rounding
`ROUND_HALF_EVEN`: result has exponent 2 (two decimal digits). -/
def quantize2HE (d : Dec) : Dec :=
  if d.exp ≤ 2 then ⟨d.val * 10 ^ (2 - d.exp), 2⟩
  else
    let p : ℤ := 10 ^ (d.exp - 2)
    let q := Int.fdiv d.val p
    let r := d.val - q * p
    ⟨if 2 * r < p then q else if p < 2 * r then q + 1 else if q % 2 = 0 then q else q + 1, 2⟩

/-- `Decimal.quantize(Decimal('0.01'), rounding=ROUND_HALF_UP)`: round to two
decimal digits with ties away from zero. -/
def quantize2HU (d : Dec) : Dec :=
  if d.exp ≤ 2 then ⟨d.val * 10 ^ (2 - d.exp), 2⟩
  else
    let p : ℤ := 10 ^ (d.exp - 2)
    ⟨if 0 ≤ d.val then Int.fdiv (2 * d.val + p) (2 * p)
     else - Int.fdiv (2 * (-d.val) + p) (2 * p), 2⟩

/-! ## database_setup.py : CSV parsing and fridge-magnet price derivation -/

/-- Outcome of reading one numeric CSV cell (`row[i+1]`).
`empty` models a cell whose stripped text is empty (the `row[i + 1].strip()`
guard fails); `invalid` models a cell for which `Decimal(text)` raises;
`val d` models a cell whose text parses to the exact decimal `d`. -/
inductive Cell where
  | empty
  | invalid
  | val (d : Dec)
  deriving DecidableEq, Repr

/-- One CSV row: the first column text and the outcomes of the numeric cells
`row[1:]`. -/
structure Row where
  first : String
  cells : List Cell
  deriving Repr

/-- The quantity headers of `size-price.csv` (`quantities` in
`parse_price_csv`). -/
def quantities : List ℕ :=
  [12, 25, 50, 75, 100, 200, 300, 600, 1000, 2000, 3000, 6000, 10000]

/-- One pricing-matrix entry (`{'size': …, 'quantity': …, 'price': …}`). -/
structure PEntry where
  size : String
  quantity : ℕ
  price : Dec
  deriving DecidableEq, Repr

/-- The entries produced from one data row of the CSV: for each quantity
breakpoint whose cell is present, non-empty and parses, the parsed price
quantized to two decimals with the default rounding
(`Decimal(row[i + 1].strip()).quantize(Decimal('0.01'))`); cells that are
empty, missing, or fail to parse contribute nothing (`except Exception: pass`). -/
def rowEntries (size : String) (cells : List Cell) : List PEntry :=
  (List.zip quantities cells).filterMap fun qc =>
    match qc.2 with
    | Cell.val d => some ⟨size, qc.1, quantize2HE d⟩
    | _ => none

/-- True when `needle` is an initial segment of `hay` (used to embed Python
substring search). -/
def startsList : List Char → List Char → Bool
  | [], _ => true
  | _ :: _, [] => false
  | a :: as, b :: bs => a = b && startsList as bs

/-- Python `needle in hay` on strings, as character lists. -/
def occursIn (needle : List Char) : List Char → Bool
  | [] => startsList needle []
  | h :: t => startsList needle (h :: t) || occursIn needle t

/-- The CSV section being read (`current_section`). -/
inductive Sect where
  | stickers
  | magnets
  deriving DecidableEq, Repr

/-- Python `needle in haystack` for strings. -/
def strContains (hay needle : String) : Bool :=
  occursIn needle.toList hay.toList

/-- Python `str.strip()` on a character list. -/
def trimChars (l : List Char) : List Char :=
  ((l.dropWhile Char.isWhitespace).reverse.dropWhile Char.isWhitespace).reverse

/-- Python `str.strip()` (for the whitespace characters appearing here). -/
def strTrim (s : String) : String := ⟨trimChars s.data⟩

/-- Python `str.upper()` (ASCII). -/
def strUpper (s : String) : String := ⟨s.data.map Char.toUpper⟩

/-- Python `str.lower()` (ASCII). -/
def strLower (s : String) : String := ⟨s.data.map Char.toLower⟩

/-- The body of `parse_price_csv`'s row loop, threading `current_section`.
Returns the pair `(sticker_pricing, magnet_pricing)`. -/
def parseRows : Option Sect → List Row → List PEntry × List PEntry
  | _, [] => ([], [])
  | sec, r :: rest =>
    if strTrim r.first = "" then parseRows sec rest
    else
      let fc := strUpper (strTrim r.first)
      if strContains fc "STICKERS PRICING" then parseRows (some Sect.stickers) rest
      else if strContains fc "MAGNETS PRICING" then parseRows (some Sect.magnets) rest
      else if fc = "SIZE" then parseRows sec rest
      else if sec.isSome && ((strLower r.first).data.contains 'x') then
        let es := rowEntries (strTrim r.first) r.cells
        let (a, b) := parseRows sec rest
        match sec with
        | some Sect.stickers => (es ++ a, b)
        | some Sect.magnets => (a, es ++ b)
        | none => (a, b)
      else parseRows sec rest

/-- `parse_price_csv`: rows whose first column is blank are skipped, section
headers switch `current_section`, the `SIZE` header row is skipped, and data
rows (inside a section, first column containing `x`) contribute their parsed
cells to the current section's list. -/
def parse_price_csv (rows : List Row) : List PEntry × List PEntry :=
  parseRows none rows

/-- `FRIDGE_MAGNET_MARKUP = Decimal('0.15')`. -/
def FRIDGE_MAGNET_MARKUP : Dec := ⟨15, 2⟩

/-- `1 + FRIDGE_MAGNET_MARKUP` (the multiplier applied to base prices). -/
def fridgeMultiplier : Dec := dadd ⟨1, 0⟩ FRIDGE_MAGNET_MARKUP

/-- `size_mapping` in `calculate_fridge_magnet_pricing`: fridge size to the
closest die-cut magnet size, in insertion order. -/
def size_mapping : List (String × String) :=
  [("2x3", "3x3"), ("2.5x3.5", "3x3"), ("4.75x2", "5x5"), ("2.5x2.5", "3x3")]

/-- Insert into an insertion-ordered dictionary of quantity-price pairs
(`magnet_by_size[size][quantity] = price`): update an existing key in place,
otherwise append. -/
def updQ : List (ℕ × Dec) → ℕ → Dec → List (ℕ × Dec)
  | [], k, v => [(k, v)]
  | (k', v') :: rest, k, v =>
    if k' = k then (k', v) :: rest else (k', v') :: updQ rest k v

/-- Dictionary lookup in a quantity-price list. -/
def lookupQ : List (ℕ × Dec) → ℕ → Option Dec
  | [], _ => none
  | (k', v') :: rest, k => if k' = k then some v' else lookupQ rest k

/-- Insert one magnet entry into the size-grouped dictionary
(`magnet_by_size`). -/
def addToGroup : List (String × List (ℕ × Dec)) → PEntry → List (String × List (ℕ × Dec))
  | [], e => [(e.size, [(e.quantity, e.price)])]
  | (s, m) :: rest, e =>
    if s = e.size then (s, updQ m e.quantity e.price) :: rest
    else (s, m) :: addToGroup rest e

/-- The `magnet_by_size` grouping loop. -/
def groupMagnets (l : List PEntry) : List (String × List (ℕ × Dec)) :=
  l.foldl addToGroup []

/-- Lookup in the size-grouped dictionary. -/
def lookupG : List (String × List (ℕ × Dec)) → String → Option (List (ℕ × Dec))
  | [], _ => none
  | (s, m) :: rest, k => if s = k then some m else lookupG rest k

/-- One fridge-magnet pricing entry
(`{'productSize': …, 'quantity': …, 'price': …}`). -/
structure FEntry where
  productSize : String
  quantity : ℕ
  price : Dec
  deriving DecidableEq, Repr

/-- The derivation loop of `calculate_fridge_magnet_pricing` over the size
mapping: for each fridge size whose base size is present, one entry per known
quantity with the 15%-marked-up, half-up-quantized price. -/
def calcFridgeAux (g : List (String × List (ℕ × Dec))) :
    List (String × String) → List FEntry
  | [] => []
  | (fs, bs) :: rest =>
    (match lookupG g bs with
     | none => []
     | some m => m.map fun qp => ⟨fs, qp.1, quantize2HU (dmul qp.2 fridgeMultiplier)⟩)
    ++ calcFridgeAux g rest

/-- `calculate_fridge_magnet_pricing`. -/
def calculate_fridge_magnet_pricing (magnet_pricing : List PEntry) : List FEntry :=
  calcFridgeAux (groupMagnets magnet_pricing) size_mapping

/-- The price the fridge table stores for a given product size and quantity:
the first matching entry, as a DynamoDB key lookup would return. -/
def fridgePriceAt (l : List FEntry) (fs : String) (q : ℕ) : Option Dec :=
  (l.find? fun e => e.productSize = fs && e.quantity = q).map FEntry.price

/-- Well-formedness of a quantity dictionary: its keys are distinct (true of
every Python `dict`). -/
def wfQ (m : List (ℕ × Dec)) : Prop := (m.map Prod.fst).Nodup

/-- Well-formedness of the size-grouped dictionary: outer keys are distinct
and every inner dictionary is well-formed. -/
def wfG (g : List (String × List (ℕ × Dec))) : Prop :=
  (g.map Prod.fst).Nodup ∧ ∀ p ∈ g, wfQ p.2

/-! ## create_order.py : payload model, validation and the order reconciler

JSON payload values reaching `convert_to_decimal` are modelled by `PyVal`:
`pnum d` is an `int`/`float`/numeric value whose `str()` parses to the exact
decimal `d`, `pdec d` is an actual `Decimal` instance (returned unchanged by
`convert_to_decimal`), and `pbad` is a value for which `Decimal(str(value))`
raises.  Missing dictionary keys are `Option.none`. -/

/-- A payload value fed to `convert_to_decimal` or compared against `0`. -/
inductive PyVal where
  | pnum (d : Dec)
  | pdec (d : Dec)
  | pbad
  deriving DecidableEq, Repr

/-- `convert_to_decimal`: `Decimal` instances pass through unchanged, other
values go through `Decimal(str(value)).quantize(Decimal('0.01'))` (default
rounding), and failures yield `Decimal('0.00')`. -/
def convert_to_decimal : PyVal → Dec
  | PyVal.pdec d => d
  | PyVal.pnum d => quantize2HE d
  | PyVal.pbad => ⟨0, 2⟩

/-- Python `value < 0` on a numeric payload value (comparing a non-numeric
value against `0` would raise and is outside the validated path). -/
def pvLt0 : PyVal → Bool
  | PyVal.pnum d => d.val < 0
  | PyVal.pdec d => d.val < 0
  | PyVal.pbad => false

/-- Python `a or dflt` for a possibly-missing string `a` whose falsy values
are `None` and `""`. -/
def truthyOr (a : Option String) (dflt : String) : String :=
  match a with
  | none => dflt
  | some s => if s = "" then dflt else s

/-- Python falsiness of a possibly-missing string. -/
def isFalsy : Option String → Bool
  | none => true
  | some s => s = ""

/-- The fields of an order-item payload dictionary that `create_order.py`
reads (missing keys are `none`; quantities are modelled as integers). -/
structure ItemIn where
  productType : Option String := none
  productName : Option String := none
  size : Option String := none
  shape : Option String := none
  quantity : Option ℤ := none
  unitPrice : Option PyVal := none
  totalPrice : Option PyVal := none
  artworkUrl : Option String := none
  imageUrl : Option String := none
  artworkS3Url : Option String := none
  previewUrl : Option String := none
  previewImageUrl : Option String := none
  previewUrlHttps : Option String := none
  artworkUrlHttps : Option String := none
  instructions : Option String := none
  deriving DecidableEq, Repr

/-- The fields of a shipping-address payload dictionary that
`create_order.py` reads. -/
structure AddrIn where
  street : Option String := none
  address : Option String := none
  apartment : Option String := none
  city : Option String := none
  state : Option String := none
  zip : Option String := none
  country : Option String := none
  deriving DecidableEq, Repr

/-- The fields of a `customerInfo` payload dictionary that `create_order.py`
reads. -/
structure CustIn where
  name : Option String := none
  fullName : Option String := none
  email : Option String := none
  phone : Option String := none
  shippingAddress : Option AddrIn := none
  deriving DecidableEq, Repr

/-- A request body for `POST /api/orders` (the fields `create_order.py`
reads; `paymentInfo` is carried as an opaque string, `""` standing for the
default `{}`). -/
structure BodyIn where
  orderId : Option String := none
  orderDate : Option String := none
  status : Option String := none
  customerInfo : CustIn := {}
  shippingAddress : Option AddrIn := none
  items : List ItemIn := []
  shipping : Option PyVal := none
  total : Option PyVal := none
  paymentInfo : Option String := none
  deriving DecidableEq, Repr

/-- An `AddrIn` with every key missing (the `{}` defaults in
`body.get('shippingAddress', customer_info.get('shippingAddress', {}))`). -/
def emptyAddr : AddrIn := {}

/-- `validate_customer_info`: accumulate all customer and address violations
in order (name, email, street/address, city, state, zip). -/
def validate_customer_info (cust : CustIn) (addr : AddrIn) : List String :=
  (if isFalsy (some (truthyOr cust.name (truthyOr cust.fullName ""))) then
    ["Missing required customer field: name"] else [])
  ++ (let email := cust.email.getD ""
      if email = "" then ["Missing required customer field: email"]
      else if !(email.data.contains '@') then ["Invalid email format"]
      else [])
  ++ (if isFalsy (some (truthyOr addr.street (truthyOr addr.address ""))) then
    ["Missing required shipping field: address"] else [])
  ++ (if isFalsy addr.city then ["Missing required shipping field: city"] else [])
  ++ (if isFalsy addr.state then ["Missing required shipping field: state"] else [])
  ++ (if isFalsy addr.zip then ["Missing required shipping field: zip"] else [])

/-- The violations `validate_items` records for the item at index `i`
(messages use the 1-based position). -/
def itemErrors (i : ℕ) (it : ItemIn) : List String :=
  let tag := "Item " ++ Nat.repr (i + 1) ++ ": "
  let missing := fun (f : String) => tag ++ "Missing required field \x27" ++ f ++ "\x27"
  (if it.productType.isNone then [missing "productType"] else [])
  ++ (if it.size.isNone then [missing "size"] else [])
  ++ (if it.quantity.isNone then [missing "quantity"] else [])
  ++ (if it.unitPrice.isNone then [missing "unitPrice"] else [])
  ++ (if it.totalPrice.isNone then [missing "totalPrice"] else [])
  ++ (if it.quantity.getD 0 ≤ 0 then [tag ++ "Invalid quantity"] else [])
  ++ (if pvLt0 (it.unitPrice.getD (PyVal.pnum ⟨0, 0⟩)) then [tag ++ "Invalid unit price"] else [])
  ++ (if pvLt0 (it.totalPrice.getD (PyVal.pnum ⟨0, 0⟩)) then [tag ++ "Invalid total price"] else [])

/-- `validate_items`: an empty order is rejected outright, otherwise each
item's violations are accumulated in order. -/
def validate_items (items : List ItemIn) : List String :=
  if items = [] then ["Order must contain at least one item"]
  else (items.enum.map fun p => itemErrors p.1 p.2).flatten

/-- A stored order item (the dictionary `prepare_order_record` builds per
item). -/
structure ItemOut where
  productType : String
  productName : String
  size : String
  shape : String
  quantity : ℤ
  unitPrice : Dec
  totalPrice : Dec
  artworkS3Url : String
  artworkPreviewUrl : String
  artworkHttpsUrl : String
  previewHttpsUrl : String
  instructions : String
  deriving DecidableEq, Repr

/-- The stored shipping address. -/
structure AddrOut where
  street : String
  apartment : String
  city : String
  state : String
  zip : String
  country : String
  deriving DecidableEq, Repr

/-- The stored customer block. -/
structure CustOut where
  name : String
  email : String
  phone : String
  shippingAddress : AddrOut
  deriving DecidableEq, Repr

/-- The order record `prepare_order_record` writes to DynamoDB. -/
structure OrderOut where
  orderId : String
  orderDate : String
  status : String
  customerInfo : CustOut
  items : List ItemOut
  subtotal : Dec
  shipping : Dec
  total : Dec
  paymentStatus : String
  paymentInfo : String
  createdAt : String
  updatedAt : String
  deriving DecidableEq, Repr

/-- The per-item body of `prepare_order_record`'s loop: resolve aliased
artwork/preview keys, default `totalPrice` to `unitPrice * quantity`. -/
def processItem (it : ItemIn) : ItemOut :=
  let unit_price := convert_to_decimal (it.unitPrice.getD (PyVal.pnum ⟨0, 0⟩))
  let quantity := it.quantity.getD 0
  let total_price :=
    match it.totalPrice with
    | some v => convert_to_decimal v
    | none => convert_to_decimal (PyVal.pdec (dmul unit_price ⟨quantity, 0⟩))
  let artwork_source := truthyOr it.artworkUrl (truthyOr it.imageUrl (it.artworkS3Url.getD ""))
  let preview_source := truthyOr it.previewUrl (truthyOr it.previewImageUrl (it.previewUrlHttps.getD ""))
  { productType := it.productType.getD ""
    productName := it.productName.getD ""
    size := it.size.getD ""
    shape := it.shape.getD ""
    quantity := quantity
    unitPrice := unit_price
    totalPrice := total_price
    artworkS3Url := artwork_source
    artworkPreviewUrl := preview_source
    artworkHttpsUrl := it.artworkUrlHttps.getD ""
    previewHttpsUrl := it.previewUrlHttps.getD ""
    instructions := it.instructions.getD "" }

/-- `body.get('shippingAddress', customer_info.get('shippingAddress', {}))`,
as computed identically in `prepare_order_record` and `lambda_handler`. -/
def resolveAddr (body : BodyIn) : AddrIn :=
  match body.shippingAddress with
  | some a => a
  | none => body.customerInfo.shippingAddress.getD emptyAddr

/-- `prepare_order_record`, with the freshly generated order id (`genId`) and
the `datetime.utcnow().isoformat()` string (`nowIso`) passed explicitly. -/
def prepare_order_record (genId nowIso : String) (body : BodyIn) : OrderOut :=
  let order_id := truthyOr body.orderId genId
  let items := body.items.map processItem
  let subtotal := items.foldl (fun acc it2 => dadd acc it2.totalPrice) ⟨0, 2⟩
  let shipping := convert_to_decimal (body.shipping.getD (PyVal.pnum ⟨0, 0⟩))
  let total :=
    match body.total with
    | some v => convert_to_decimal v
    | none => convert_to_decimal (PyVal.pdec (dadd subtotal shipping))
  let cust := body.customerInfo
  let addr := resolveAddr body
  let customer_name := truthyOr cust.name (cust.fullName.getD "")
  let street_address := truthyOr addr.street (addr.address.getD "")
  { orderId := order_id
    orderDate := truthyOr body.orderDate (nowIso ++ "Z")
    status := body.status.getD "pending_payment"
    customerInfo :=
      { name := customer_name
        email := cust.email.getD ""
        phone := cust.phone.getD ""
        shippingAddress :=
          { street := street_address
            apartment := addr.apartment.getD ""
            city := addr.city.getD ""
            state := addr.state.getD ""
            zip := addr.zip.getD ""
            country := addr.country.getD "USA" } }
    items := items
    subtotal := subtotal
    shipping := shipping
    total := total
    paymentStatus := "test_payment"
    paymentInfo := body.paymentInfo.getD ""
    createdAt := nowIso ++ "Z"
    updatedAt := nowIso ++ "Z" }

/-- Reading a stored item back as a payload: the stored dictionary carries
the keys `productType, productName, size, shape, quantity, unitPrice,
totalPrice, artworkS3Url, artworkPreviewUrl, artworkHttpsUrl,
previewHttpsUrl, instructions`; of these, only the ones `prepare_order_record`
reads map to an `ItemIn` field of the same name, while the alias keys it reads
(`artworkUrl, imageUrl, previewUrl, previewImageUrl, previewUrlHttps,
artworkUrlHttps`) are absent from the stored dictionary.  The stored prices
are `Decimal` instances. -/
def itemOutToIn (o : ItemOut) : ItemIn :=
  { productType := some o.productType
    productName := some o.productName
    size := some o.size
    shape := some o.shape
    quantity := some o.quantity
    unitPrice := some (PyVal.pdec o.unitPrice)
    totalPrice := some (PyVal.pdec o.totalPrice)
    artworkUrl := none
    imageUrl := none
    artworkS3Url := some o.artworkS3Url
    previewUrl := none
    previewImageUrl := none
    previewUrlHttps := none
    artworkUrlHttps := none
    instructions := some o.instructions }

/-- Reading a stored shipping address back as a payload (the stored
dictionary has no `address` alias key). -/
def addrOutToIn (a : AddrOut) : AddrIn :=
  { street := some a.street
    address := none
    apartment := some a.apartment
    city := some a.city
    state := some a.state
    zip := some a.zip
    country := some a.country }

/-- Reading a stored order record back as a request body (stored keys only:
no top-level `shippingAddress`, no `fullName`, prices as `Decimal`
instances). -/
def orderOutToBody (o : OrderOut) : BodyIn :=
  { orderId := some o.orderId
    orderDate := some o.orderDate
    status := some o.status
    customerInfo :=
      { name := some o.customerInfo.name
        fullName := none
        email := some o.customerInfo.email
        phone := some o.customerInfo.phone
        shippingAddress := some (addrOutToIn o.customerInfo.shippingAddress) }
    shippingAddress := none
    items := o.items.map itemOutToIn
    shipping := some (PyVal.pdec o.shipping)
    total := some (PyVal.pdec o.total)
    paymentInfo := some o.paymentInfo }

/-- The responses `lambda_handler` can produce on the validated path
(CORS preflight, JSON-decode failure and the exception handlers are outside
this model). -/
inductive HResp where
  | custErr (details : List String)
  | itemErr (details : List String)
  | created (orderId orderDate : String) (total : Dec) (status : String) (emailSent : Bool)
  deriving DecidableEq, Repr

/-- `lambda_handler` for a parsed body: validate customer info, then items,
then persist and respond 201.  `emailOk` is the boolean returned by
`trigger_confirmation_email` (which catches its own `ClientError` and never
raises on invocation failure); it only feeds the `emailNotificationSent`
flag. -/
def lambda_handler (emailOk : Bool) (genId nowIso : String) (body : BodyIn) : HResp :=
  let cust := body.customerInfo
  let addr := resolveAddr body
  let customer_errors := validate_customer_info cust addr
  if customer_errors ≠ [] then HResp.custErr customer_errors
  else
    let item_errors := validate_items body.items
    if item_errors ≠ [] then HResp.itemErr item_errors
    else
      let rec1 := prepare_order_record genId nowIso body
      HResp.created rec1.orderId rec1.orderDate rec1.total rec1.status emailOk

/-! ## get_pricing.py : the size sort key

`parse_size_for_sorting` maps a size token to a tuple of Python floats, with
`(float('inf'),)` for malformed tokens.  Size tokens are short decimal
numerals, on which `float()` is exact up to ordering, so the parsed
dimensions are modelled as exact decimals (`Dec`); `float()`'s exotic
accepted forms (exponents, `inf`, `nan`, underscores) are not modelled. -/

/-- One component of the sort key: a parsed dimension or `float('inf')`. -/
inductive PF where
  | fin (d : Dec)
  | inf
  deriving DecidableEq, Repr

/-- Numeric `<` on exact decimals (cross-multiplied). -/
def dvLt (a b : Dec) : Bool := a.val * 10 ^ b.exp < b.val * 10 ^ a.exp

/-- Numeric `==` on exact decimals. -/
def dvEq (a b : Dec) : Bool := a.val * 10 ^ b.exp = b.val * 10 ^ a.exp

/-- Python float `<` with infinity above every finite value. -/
def pfLt : PF → PF → Bool
  | PF.fin a, PF.fin b => dvLt a b
  | PF.fin _, PF.inf => true
  | PF.inf, _ => false

/-- Python float `==` on key components. -/
def pfEq : PF → PF → Bool
  | PF.fin a, PF.fin b => dvEq a b
  | PF.inf, PF.inf => true
  | _, _ => false

/-- Python tuple `<` (lexicographic; a proper initial segment is smaller). -/
def keyLt : List PF → List PF → Bool
  | [], [] => false
  | [], _ :: _ => true
  | _ :: _, [] => false
  | a :: as, b :: bs => pfLt a b || (pfEq a b && keyLt as bs)

/-- Numeric value of a digit list (most significant first). -/
def digitsVal (cs : List Char) : ℕ :=
  cs.foldl (fun a c => a * 10 + (c.toNat - 48)) 0

/-- Parse an unsigned decimal numeral with at most one point into an exact
decimal. -/
def parseUnsigned (cs : List Char) : Option Dec :=
  match cs.splitOn '.' with
  | [intp] =>
    if intp ≠ [] && intp.all Char.isDigit then some ⟨digitsVal intp, 0⟩ else none
  | [intp, frac] =>
    if (intp ≠ [] || frac ≠ []) && intp.all Char.isDigit && frac.all Char.isDigit then
      some ⟨digitsVal (intp ++ frac), frac.length⟩
    else none
  | _ => none

/-- `float()` on a plain decimal numeral with optional sign. -/
def parseFloat (cs : List Char) : Option Dec :=
  match cs with
  | '-' :: rest => (parseUnsigned rest).map fun d => ⟨-d.val, d.exp⟩
  | '+' :: rest => parseUnsigned rest
  | _ => parseUnsigned cs

/-- Scanner for `replAll`: `skip` counts characters of a just-matched
occurrence still to be dropped. -/
def replAllGo (needle : List Char) : ℕ → List Char → List Char
  | _, [] => []
  | Nat.succ k, _ :: t => replAllGo needle k t
  | 0, h :: t =>
    if startsList needle (h :: t) && needle ≠ [] then
      replAllGo needle (needle.length - 1) t
    else h :: replAllGo needle 0 t

/-- Python `str.replace(needle, '')`: delete every occurrence of `needle`
(scanning left to right). -/
def replAll (needle : List Char) (l : List Char) : List Char :=
  replAllGo needle 0 l

/-- `parse_size_for_sorting`:
`size.lower().replace('inch', '').replace('"', '').strip().split('x')`, then
`float` on each stripped part; any failure yields the singleton infinity
key. -/
def parse_size_for_sorting (size : String) : List PF :=
  let cleaned := trimChars ((replAll "inch".data ((strLower size).data)).filter (fun c => c ≠ '\x22'))
  let parts := cleaned.splitOn 'x'
  match parts.mapM (fun p => parseFloat (trimChars p)) with
  | some ds => ds.map PF.fin
  | none => [PF.inf]

/-! ## Auxiliary definitions used to state the claims -/

/-- Clearing the three alias-resolved URL fields whose source keys are not
present in a stored item (`artworkPreviewUrl`, `artworkHttpsUrl`,
`previewHttpsUrl`). -/
def clearAliasUrls (it : ItemOut) : ItemOut :=
  { it with artworkPreviewUrl := "", artworkHttpsUrl := "", previewHttpsUrl := "" }

/-- The email shape the specification describes, a simple `local@domain.tld`:
exactly one `@`, a non-empty local part, and a domain containing a `.` with
non-empty labels.  This definition follows the specification's wording, for
comparison against the code's check. -/
def specEmailShape (s : String) : Bool :=
  match s.data.splitOn '@' with
  | [loc, dom] =>
    loc ≠ [] &&
      (let labels := dom.splitOn '.'
       labels.length ≥ 2 && labels.all (· ≠ []))
  | _ => false

/-- A complete shipping address used in concrete instances. -/
def cxAddr : AddrIn :=
  { street := some "123 Main St", city := some "New York", state := some "NY",
    zip := some "10001" }

/-- A fully valid order item used in concrete instances. -/
def cxItem : ItemIn :=
  { productType := some "die_cut_sticker", size := some "5x5", quantity := some 50,
    unitPrice := some (PyVal.pnum ⟨143, 2⟩), totalPrice := some (PyVal.pnum ⟨7125, 2⟩) }

/-- The valid order item with its `totalPrice` key omitted. -/
def cxItemNoTotal : ItemIn := { cxItem with totalPrice := none }

/-- A fully valid order body used in concrete instances. -/
def cxBody : BodyIn :=
  { customerInfo :=
      { name := some "John Doe", email := some "john@example.com",
        shippingAddress := some cxAddr },
    items := [cxItem] }

/-- A body violating both the customer check (everything missing) and the
items check (empty item list). -/
def cxBadBody : BodyIn := {}

/-- A customer block whose email has no dot in its domain. -/
def cxCustNoDot : CustIn := { name := some "John Doe", email := some "a@b" }

/-- Concrete CSV rows: a stickers section and one data row whose single cell
is `1.005`, a tie case distinguishing the rounding modes. -/
def cxRows : List Row :=
  [⟨"STICKERS PRICING", []⟩, ⟨"3x3", [Cell.val ⟨1005, 3⟩]⟩]

/-- A concrete magnet pricing list: `3x3` at quantity 50 costs `1.24`. -/
def cxMagnets : List PEntry := [⟨"3x3", 50, ⟨124, 2⟩⟩]

/-- A body whose single item carries a `previewUrl`, exercising the alias
resolution of `prepare_order_record`. -/
def cxPreviewBody : BodyIn :=
  { customerInfo :=
      { name := some "John Doe", email := some "john@example.com",
        shippingAddress := some cxAddr },
    items := [{ cxItem with previewUrl := some "https://cdn/p.png" }] }

/-! ## Helper lemmas -/

theorem quantize2HE_exp (d : Dec) : (quantize2HE d).exp = 2 := by
  unfold quantize2HE; split <;> rfl

theorem quantize2HU_exp (d : Dec) : (quantize2HU d).exp = 2 := by
  unfold quantize2HU; split <;> rfl

theorem quantize2HE_of_exp2 (d : Dec) (h : d.exp = 2) : quantize2HE d = d := by
  obtain ⟨v, e⟩ := d
  simp only at h
  subst h
  simp [quantize2HE]

theorem convert_to_decimal_exp2 (v : PyVal) (h : ∀ d, v ≠ PyVal.pdec d) :
    (convert_to_decimal v).exp = 2 := by
  cases v with
  | pnum d => exact quantize2HE_exp d
  | pdec d => exact absurd rfl (h d)
  | pbad => rfl

theorem dadd_toRat (a b : Dec) : (dadd a b).toRat = a.toRat + b.toRat := by
  obtain ⟨va, ea⟩ := a
  obtain ⟨vb, eb⟩ := b
  simp only [dadd, Dec.toRat]
  have h10 : (10 : ℚ) ≠ 0 := by norm_num
  rw [div_add_div _ _ (pow_ne_zero ea h10) (pow_ne_zero eb h10),
    div_eq_div_iff (pow_ne_zero _ h10) (by positivity)]
  push_cast
  have e1 : max ea eb - ea + (ea + eb) = max ea eb + eb := by omega
  have e2 : max ea eb - eb + (eb + ea) = max ea eb + ea := by omega
  calc ((va : ℚ) * 10 ^ (max ea eb - ea) + vb * 10 ^ (max ea eb - eb))
          * (10 ^ ea * 10 ^ eb)
      = va * 10 ^ (max ea eb - ea + (ea + eb)) + vb * 10 ^ (max ea eb - eb + (eb + ea)) := by
        rw [pow_add, pow_add, pow_add]; ring
    _ = va * 10 ^ (max ea eb + eb) + vb * 10 ^ (max ea eb + ea) := by rw [e1, e2]
    _ = (va * 10 ^ eb + 10 ^ ea * vb) * 10 ^ max ea eb := by
        rw [pow_add, pow_add]; ring

theorem truthyOr_some_empty (s : String) : truthyOr (some s) "" = s := by
  by_cases h : s = "" <;> simp [truthyOr, h]

theorem truthyOr_restore (a : Option String) (d : String) :
    truthyOr (some (truthyOr a d)) d = truthyOr a d := by
  cases a with
  | none => simp [truthyOr]
  | some s => by_cases h : s = "" <;> simp [truthyOr, h]

theorem find?_eq_of_mem_unique {α : Type} (p : α → Bool) (l : List α) (a : α)
    (ha : a ∈ l) (hpa : p a = true) (hu : ∀ b ∈ l, p b = true → b = a) :
    l.find? p = some a := by
  induction l with
  | nil => cases ha
  | cons h t ih =>
    by_cases hp : p h = true
    · rw [List.find?_cons_of_pos _ hp, hu h (List.mem_cons_self h t) hp]
    · rw [List.find?_cons_of_neg _ hp]
      rcases List.mem_cons.mp ha with h1 | h1
      · exact absurd (h1 ▸ hpa) hp
      · exact ih h1 fun b hb => hu b (List.mem_cons_of_mem _ hb)

theorem rowEntries_shape (s : String) (cells : List Cell) (e : PEntry)
    (he : e ∈ rowEntries s cells) :
    e.size = s ∧ ∃ c, e.price = quantize2HE c := by
  obtain ⟨qc, _, hf⟩ := List.mem_filterMap.mp he
  rcases qc with ⟨q, c⟩
  cases c with
  | val d =>
    simp only [rowEntries] at hf
    cases hf
    exact ⟨rfl, d, rfl⟩
  | empty => simp [rowEntries] at hf
  | invalid => simp [rowEntries] at hf

theorem foldl_dadd_toRat (l : List Dec) (init : Dec) :
    (l.foldl dadd init).toRat = init.toRat + (l.map Dec.toRat).sum := by
  induction l generalizing init with
  | nil => simp
  | cons h t ih =>
    simp only [List.foldl_cons, List.map_cons, List.sum_cons, ih, dadd_toRat]
    ring

/-! ## Claim theorems -/

/-- C7: during price-table parsing, a cell whose value fails to parse is
silently skipped: no entry for that (size, quantity) pair is produced, the
row's other parsable cells still produce their entries, and the remaining
rows of the batch are still parsed. -/
theorem C7_invalid_cell_silently_skipped
    (s : String) (cells : List Cell) (i j q qj : ℕ) (x : Dec)
    (hqi : quantities[i]? = some q) (hci : cells[i]? = some Cell.invalid)
    (hqj : quantities[j]? = some qj) (hcj : cells[j]? = some (Cell.val x)) :
    (∀ e ∈ rowEntries s cells, e.quantity ≠ q) ∧
    (PEntry.mk s qj (quantize2HE x) ∈ rowEntries s cells) ∧
    (∀ (first : String) (rest : List Row),
      strTrim first ≠ "" →
      strContains (strUpper (strTrim first)) "STICKERS PRICING" = false →
      strContains (strUpper (strTrim first)) "MAGNETS PRICING" = false →
      strUpper (strTrim first) ≠ "SIZE" →
      (strLower first).data.contains 'x' = true →
      parseRows (some Sect.stickers) (Row.mk first cells :: rest) =
        (rowEntries (strTrim first) cells ++ (parseRows (some Sect.stickers) rest).1,
         (parseRows (some Sect.stickers) rest).2)) := by
  refine ⟨?_, ?_, ?_⟩
  · intro e he hq
    obtain ⟨⟨q', c⟩, hm, hf⟩ := List.mem_filterMap.mp he
    cases c with
    | val d =>
      simp only [rowEntries] at hf
      cases hf
      simp only at hq
      subst hq
      obtain ⟨k, hk⟩ := List.mem_iff_getElem?.mp hm
      obtain ⟨hk1, hk2⟩ := (List.getElem?_zip_eq_some).mp hk
      have hnd : quantities.Nodup := by decide
      have hklt : k < quantities.length := (List.getElem?_eq_some.mp hk1).1
      have : k = i := List.getElem?_inj hklt hnd (by rw [hk1, hqi])
      subst this
      rw [hci] at hk2
      cases hk2
    | empty => simp [rowEntries] at hf
    | invalid => simp [rowEntries] at hf
  · refine List.mem_filterMap.mpr ⟨(qj, Cell.val x), ?_, rfl⟩
    exact List.getElem?_mem ((List.getElem?_zip_eq_some).mpr ⟨hqj, hcj⟩)
  · intro first rest h1 h2 h3 h4 h5
    simp only [parseRows]
    rw [if_neg h1, if_neg (by simp [h2]), if_neg (by simp [h3]), if_neg h4,
      if_pos (by simp [List.mem_of_elem_eq_true h5])]

/-- C9: when triggering the confirmation notification fails after the order
has been persisted, the request still completes with the created-order
response carrying the persisted record's id, date, total and status, and the
failure surfaces only as the `emailNotificationSent` flag — the response is
the same as on notification success except for that flag, never an error. -/
theorem C9_notification_failure_partial_success (genId nowIso : String) (b : BodyIn)
    (hc : validate_customer_info b.customerInfo (resolveAddr b) = [])
    (hi : validate_items b.items = []) :
    ∀ emailOk : Bool, lambda_handler emailOk genId nowIso b =
      HResp.created (prepare_order_record genId nowIso b).orderId
        (prepare_order_record genId nowIso b).orderDate
        (prepare_order_record genId nowIso b).total
        (prepare_order_record genId nowIso b).status emailOk := by
  intro emailOk
  simp [lambda_handler, hc, hi]

/-- C10: in every order record produced by the reconciler, `subtotal` is the
sum of the processed items' `totalPrice` values (both as the accumulated
decimal and as exact rational values), and when the payload has no `total`
key the `total` equals `subtotal + shipping`. -/
theorem C10_subtotal_sum_and_total (genId nowIso : String) (b : BodyIn) :
    (prepare_order_record genId nowIso b).subtotal =
      ((prepare_order_record genId nowIso b).items.map ItemOut.totalPrice).foldl dadd ⟨0, 2⟩ ∧
    (prepare_order_record genId nowIso b).subtotal.toRat =
      (((prepare_order_record genId nowIso b).items.map fun it2 => it2.totalPrice.toRat).sum) ∧
    (b.total = none →
      (prepare_order_record genId nowIso b).total =
        dadd (prepare_order_record genId nowIso b).subtotal
          (prepare_order_record genId nowIso b).shipping) := by
  refine ⟨?_, ?_, ?_⟩
  · simp [prepare_order_record, List.foldl_map]
  · simp only [prepare_order_record]
    rw [← List.foldl_map (f := ItemOut.totalPrice) (g := dadd), foldl_dadd_toRat,
      List.map_map]
    simp [Dec.toRat, Function.comp_def]
  · intro hnone
    simp [prepare_order_record, hnone, convert_to_decimal]

/-- C5: for an order item whose payload omits `totalPrice` (and whose
`unitPrice`, coming from JSON, is not a raw `Decimal` instance), the
reconciled item's `totalPrice` equals `unitPrice * quantity`, which is
already quantized to 2 decimal places. -/
theorem C5_totalPrice_defaults_to_product (it : ItemIn)
    (hmissing : it.totalPrice = none)
    (hjson : ∀ d, it.unitPrice ≠ some (PyVal.pdec d)) :
    (processItem it).totalPrice =
      dmul (processItem it).unitPrice ⟨(processItem it).quantity, 0⟩ ∧
    (processItem it).totalPrice =
      quantize2HE (dmul (processItem it).unitPrice ⟨(processItem it).quantity, 0⟩) ∧
    (processItem it).totalPrice.exp = 2 := by
  have hexp : (convert_to_decimal (it.unitPrice.getD (PyVal.pnum ⟨0, 0⟩))).exp = 2 := by
    cases hu : it.unitPrice with
    | none => simp [convert_to_decimal, quantize2HE_exp]
    | some v =>
      cases v with
      | pnum d => simp [convert_to_decimal, quantize2HE_exp]
      | pdec d => exact absurd hu (hjson d)
      | pbad => simp [convert_to_decimal]
  have hexp2 : (dmul (convert_to_decimal (it.unitPrice.getD (PyVal.pnum ⟨0, 0⟩)))
      ⟨it.quantity.getD 0, 0⟩).exp = 2 := by
    simp [dmul, hexp]
  have convert_pdec : ∀ d : Dec, convert_to_decimal (PyVal.pdec d) = d := fun _ => rfl
  refine ⟨?_, ?_, ?_⟩
  · simp [processItem, hmissing, convert_pdec]
  · simp only [processItem, hmissing, convert_pdec]
    exact (quantize2HE_of_exp2 _ hexp2).symm
  · simp only [processItem, hmissing, convert_pdec]
    exact hexp2

/-- Witness for C7 at a concrete malformed row followed by a further row. -/
theorem C7_witness :
    ((⟨"3x3", 25, quantize2HE ⟨124, 2⟩⟩ : PEntry) ∈
      rowEntries "3x3" [Cell.invalid, Cell.val ⟨124, 2⟩]) ∧
    parseRows (some Sect.stickers)
        [⟨"3x3", [Cell.invalid, Cell.val ⟨124, 2⟩]⟩, ⟨"4x4", [Cell.val ⟨200, 2⟩]⟩] =
      (rowEntries (strTrim "3x3") [Cell.invalid, Cell.val ⟨124, 2⟩] ++
        (parseRows (some Sect.stickers) [⟨"4x4", [Cell.val ⟨200, 2⟩]⟩]).1,
       (parseRows (some Sect.stickers) [⟨"4x4", [Cell.val ⟨200, 2⟩]⟩]).2) := by
  have h := C7_invalid_cell_silently_skipped "3x3" [Cell.invalid, Cell.val ⟨124, 2⟩]
    0 1 12 25 ⟨124, 2⟩ (by decide) (by decide) (by decide) (by decide)
  exact ⟨h.2.1, h.2.2 "3x3" [⟨"4x4", [Cell.val ⟨200, 2⟩]⟩]
    (by decide) (by decide) (by decide) (by decide) (by decide)⟩

/-- Witness for C9 on a fully valid body: with the notification trigger
failing, the response is still `created` with the flag false. -/
theorem C9_witness :
    lambda_handler false "SLMAG-TEST-AAA" "2026-01-01T00:00:00" cxBody =
      HResp.created
        (prepare_order_record "SLMAG-TEST-AAA" "2026-01-01T00:00:00" cxBody).orderId
        (prepare_order_record "SLMAG-TEST-AAA" "2026-01-01T00:00:00" cxBody).orderDate
        (prepare_order_record "SLMAG-TEST-AAA" "2026-01-01T00:00:00" cxBody).total
        (prepare_order_record "SLMAG-TEST-AAA" "2026-01-01T00:00:00" cxBody).status false :=
  C9_notification_failure_partial_success "SLMAG-TEST-AAA" "2026-01-01T00:00:00" cxBody
    (by decide) (by decide) false

/-- Witness for C10 on a concrete body without a `total` key. -/
theorem C10_witness :
    (prepare_order_record "G" "T" cxBody).subtotal =
      ((prepare_order_record "G" "T" cxBody).items.map ItemOut.totalPrice).foldl dadd ⟨0, 2⟩ ∧
    (prepare_order_record "G" "T" cxBody).total =
      dadd (prepare_order_record "G" "T" cxBody).subtotal
        (prepare_order_record "G" "T" cxBody).shipping :=
  ⟨(C10_subtotal_sum_and_total "G" "T" cxBody).1,
   (C10_subtotal_sum_and_total "G" "T" cxBody).2.2 rfl⟩

/-- Witness for C5: `unitPrice = 1.43`, `quantity = 50`, no `totalPrice`
yields `totalPrice = 71.50`. -/
theorem C5_witness :
    (processItem cxItemNoTotal).totalPrice =
      dmul (processItem cxItemNoTotal).unitPrice ⟨(processItem cxItemNoTotal).quantity, 0⟩ ∧
    (processItem cxItemNoTotal).totalPrice = ⟨7150, 2⟩ :=
  ⟨(C5_totalPrice_defaults_to_product cxItemNoTotal rfl
      (by intro d h; simp [cxItemNoTotal, cxItem] at h)).1,
   by decide⟩

/-- Numeric strict order on `Dec` agrees with the rational values. -/
theorem dvLt_toRat (a b : Dec) : dvLt a b = true ↔ a.toRat < b.toRat := by
  simp only [dvLt, decide_eq_true_eq, Dec.toRat]
  rw [div_lt_div_iff (by positivity) (by positivity)]
  constructor
  · intro h; exact_mod_cast h
  · intro h; exact_mod_cast h

/-- Numeric equality on `Dec` agrees with the rational values. -/
theorem dvEq_toRat (a b : Dec) : dvEq a b = true ↔ a.toRat = b.toRat := by
  simp only [dvEq, decide_eq_true_eq, Dec.toRat]
  rw [div_eq_div_iff (by positivity) (by positivity)]
  constructor
  · intro h; exact_mod_cast h
  · intro h; exact_mod_cast h

/-- C6: on well-formed two-dimension size tokens the sort key is the strict
lexicographic order on the numeric (width, height) values, so
`"2x2" < "2.5x2.5" < "10x10"`; a token that fails to parse receives the
singleton infinity key, which sorts strictly after every well-formed
token. -/
theorem C6_size_sort_key :
    (∀ s t w1 h1 w2 h2,
      parse_size_for_sorting s = [PF.fin w1, PF.fin h1] →
      parse_size_for_sorting t = [PF.fin w2, PF.fin h2] →
      (keyLt (parse_size_for_sorting s) (parse_size_for_sorting t) = true ↔
        (w1.toRat < w2.toRat ∨ (w1.toRat = w2.toRat ∧ h1.toRat < h2.toRat)))) ∧
    (∀ s t w h,
      parse_size_for_sorting s = [PF.fin w, PF.fin h] →
      parse_size_for_sorting t = [PF.inf] →
      keyLt (parse_size_for_sorting s) (parse_size_for_sorting t) = true ∧
      keyLt (parse_size_for_sorting t) (parse_size_for_sorting s) = false) ∧
    keyLt (parse_size_for_sorting "2x2") (parse_size_for_sorting "2.5x2.5") = true ∧
    keyLt (parse_size_for_sorting "2.5x2.5") (parse_size_for_sorting "10x10") = true := by
  refine ⟨?_, ?_, by decide, by decide⟩
  · intro s t w1 h1 w2 h2 hs ht
    rw [hs, ht]
    simp [keyLt, pfLt, pfEq, dvLt_toRat, dvEq_toRat]
  · intro s t w h hs ht
    rw [hs, ht]
    simp [keyLt, pfLt, pfEq]

/-- Witness for C6 at concrete tokens. -/
theorem C6_witness :
    (keyLt (parse_size_for_sorting "2x2") (parse_size_for_sorting "2.5x2.5") = true ↔
      ((⟨2, 0⟩ : Dec).toRat < (⟨25, 1⟩ : Dec).toRat ∨
        ((⟨2, 0⟩ : Dec).toRat = (⟨25, 1⟩ : Dec).toRat ∧
          (⟨2, 0⟩ : Dec).toRat < (⟨25, 1⟩ : Dec).toRat))) ∧
    (keyLt (parse_size_for_sorting "10x10") (parse_size_for_sorting "not a size") = true ∧
     keyLt (parse_size_for_sorting "not a size") (parse_size_for_sorting "10x10") = false) :=
  ⟨C6_size_sort_key.1 "2x2" "2.5x2.5" ⟨2, 0⟩ ⟨2, 0⟩ ⟨25, 1⟩ ⟨25, 1⟩ (by decide) (by decide),
   C6_size_sort_key.2.1 "10x10" "not a size" ⟨10, 0⟩ ⟨10, 0⟩ (by decide) (by decide)⟩

/-- C2 (counterexample): a submission violating both the customer check and
the items check receives only the customer check's violations — the item
violation is absent from the response, so the caller does not get the
complete list from both checks. -/
theorem C2_counterexample :
    lambda_handler true "G" "T" cxBadBody =
      HResp.custErr
        ["Missing required customer field: name", "Missing required customer field: email",
         "Missing required shipping field: address", "Missing required shipping field: city",
         "Missing required shipping field: state", "Missing required shipping field: zip"] ∧
    validate_items cxBadBody.items = ["Order must contain at least one item"] ∧
    "Order must contain at least one item" ∉
      ["Missing required customer field: name", "Missing required customer field: email",
       "Missing required shipping field: address", "Missing required shipping field: city",
       "Missing required shipping field: state", "Missing required shipping field: zip"] := by
  decide

/-- C2 (amended): each validator accumulates all of its own violations, but
the handler runs the two checks sequentially and short-circuits between
them: a failing customer/address check is answered with exactly that check's
full error list (item violations are not included), and the items check's
full list is returned only when the customer check passes. -/
theorem C2_amended_sequential_validation (emailOk : Bool) (genId nowIso : String) (b : BodyIn) :
    (validate_customer_info b.customerInfo (resolveAddr b) ≠ [] →
      lambda_handler emailOk genId nowIso b =
        HResp.custErr (validate_customer_info b.customerInfo (resolveAddr b))) ∧
    (validate_customer_info b.customerInfo (resolveAddr b) = [] →
      validate_items b.items ≠ [] →
      lambda_handler emailOk genId nowIso b = HResp.itemErr (validate_items b.items)) := by
  constructor
  · intro h
    simp [lambda_handler, h]
  · intro h1 h2
    simp [lambda_handler, h1, h2]

/-- Witness for the amended C2 on a body violating both checks. -/
theorem C2_amended_witness :
    lambda_handler true "G" "T" cxBadBody =
      HResp.custErr (validate_customer_info cxBadBody.customerInfo (resolveAddr cxBadBody)) :=
  (C2_amended_sequential_validation true "G" "T" cxBadBody).1 (by decide)

/-- C8 (counterexample): the email `a@b` is not of the `local@domain.tld`
shape (no dot in the domain), yet validation reports no error for it. -/
theorem C8_counterexample :
    specEmailShape "a@b" = false ∧
    validate_customer_info cxCustNoDot cxAddr = [] := by
  decide

/-- C8 (amended): validation requires the customer email to be present and
to contain an `@` character; a missing email or an `@`-less email produces
an accumulated error, but no further `local@domain.tld` shape (such as a dot
in the domain) is enforced. -/
theorem C8_amended_email_at_sign_only (cust : CustIn) (addr : AddrIn) :
    (cust.email.getD "" = "" →
      "Missing required customer field: email" ∈ validate_customer_info cust addr) ∧
    (cust.email.getD "" ≠ "" → (cust.email.getD "").data.contains '@' = false →
      "Invalid email format" ∈ validate_customer_info cust addr) ∧
    ((cust.email.getD "").data.contains '@' = true →
      "Invalid email format" ∉ validate_customer_info cust addr ∧
      "Missing required customer field: email" ∉ validate_customer_info cust addr) := by
  refine ⟨?_, ?_, ?_⟩
  · intro h
    simp [validate_customer_info, h]
  · intro h1 h2
    have h2m : '@' ∉ (cust.email.getD "").data := by
      intro hm
      have h3 : (cust.email.getD "").data.contains '@' = true :=
        List.elem_eq_true_of_mem hm
      rw [h3] at h2
      cases h2
    simp [validate_customer_info, h1, h2m]
  · intro h
    have h1 : cust.email.getD "" ≠ "" := by
      intro he
      rw [he] at h
      simp at h
    constructor <;>
      (simp only [validate_customer_info]
       split_ifs <;> simp_all)

/-- Witness for the amended C8 on the dot-less email `a@b`. -/
theorem C8_amended_witness :
    "Invalid email format" ∉ validate_customer_info cxCustNoDot cxAddr ∧
    "Missing required customer field: email" ∉ validate_customer_info cxCustNoDot cxAddr :=
  (C8_amended_email_at_sign_only cxCustNoDot cxAddr).2.2 (by decide)

/-- Membership in the fridge derivation loop's output: exactly the entries
obtained from a mapping pair whose base size is present, one per
quantity-price pair of that base size's dictionary. -/
theorem mem_calcFridgeAux (g : List (String × List (ℕ × Dec))) (l : List (String × String))
    (e : FEntry) :
    e ∈ calcFridgeAux g l ↔
      ∃ fs bs m qp, (fs, bs) ∈ l ∧ lookupG g bs = some m ∧ qp ∈ m ∧
        e = ⟨fs, qp.1, quantize2HU (dmul qp.2 fridgeMultiplier)⟩ := by
  induction l with
  | nil => simp [calcFridgeAux]
  | cons p rest ih =>
    rcases p with ⟨fs', bs'⟩
    rw [calcFridgeAux]
    constructor
    · intro h
      rcases List.mem_append.mp h with h | h
      · cases hg : lookupG g bs' with
        | none => rw [hg] at h; simp at h
        | some m =>
          rw [hg] at h
          simp only at h
          obtain ⟨qp, hqp, he⟩ := List.mem_map.mp h
          exact ⟨fs', bs', m, qp, List.mem_cons_self _ _, hg, hqp, he.symm⟩
      · obtain ⟨fs, bs, m, qp, hmem, hg, hqp, he⟩ := ih.mp h
        exact ⟨fs, bs, m, qp, List.mem_cons_of_mem _ hmem, hg, hqp, he⟩
    · rintro ⟨fs, bs, m, qp, hmem, hg, hqp, he⟩
      rcases List.mem_cons.mp hmem with heq | hmem'
      · obtain ⟨hfs, hbs⟩ := Prod.mk.injEq .. ▸ heq
        subst hfs
        subst hbs
        refine List.mem_append.mpr (Or.inl ?_)
        rw [hg]
        simp only []
        exact List.mem_map.mpr ⟨qp, hqp, he.symm⟩
      · exact List.mem_append.mpr (Or.inr (ih.mpr ⟨fs, bs, m, qp, hmem', hg, hqp, he⟩))

/-- Every entry the CSV parser emits (in either section) carries a price
obtained by the default-rounding two-decimal quantization of some parsed
cell value. -/
theorem parseRows_price_shape (rows : List Row) (sec : Option Sect) (e : PEntry)
    (h : e ∈ (parseRows sec rows).1 ∨ e ∈ (parseRows sec rows).2) :
    ∃ c, e.price = quantize2HE c := by
  induction rows generalizing sec with
  | nil => simp [parseRows] at h
  | cons r rest ih =>
    simp only [parseRows] at h
    split_ifs at h with h1 h2 h3 h4 h5
    · exact ih sec h
    · exact ih (some Sect.stickers) h
    · exact ih (some Sect.magnets) h
    · exact ih sec h
    · cases sec with
      | none => simp at h5
      | some sv =>
        rcases hpr : parseRows (some sv) rest with ⟨a, b⟩
        rw [hpr] at h
        cases sv with
        | stickers =>
          simp only at h
          rcases h with h | h
          · rcases List.mem_append.mp h with h | h
            · exact (rowEntries_shape _ _ _ h).2
            · exact ih (some Sect.stickers) (by rw [hpr]; exact Or.inl h)
          · exact ih (some Sect.stickers) (by rw [hpr]; exact Or.inr h)
        | magnets =>
          simp only at h
          rcases h with h | h
          · exact ih (some Sect.magnets) (by rw [hpr]; exact Or.inl h)
          · rcases List.mem_append.mp h with h | h
            · exact (rowEntries_shape _ _ _ h).2
            · exact ih (some Sect.magnets) (by rw [hpr]; exact Or.inr h)
    · exact ih sec h

/-- C3 (counterexample): the sticker cell `1.005` is stored as `1.00`
(default round-half-even), while round-half-up quantization of `1.005`
yields `1.01` — so not every persisted price is quantized round-half-up. -/
theorem C3_counterexample :
    (parse_price_csv cxRows).1 = [⟨"3x3", 12, ⟨100, 2⟩⟩] ∧
    quantize2HU ⟨1005, 3⟩ = ⟨101, 2⟩ ∧
    ((⟨100, 2⟩ : Dec) ≠ (⟨101, 2⟩ : Dec)) := by
  decide

/-- C3 (amended): every persisted price is quantized to exactly 2 decimal
digits, but with two different rounding modes: parsed sticker and magnet
cells use the `Decimal` default round-half-even, while derived fridge-magnet
entries use round-half-up on the marked-up base price. -/
theorem C3_amended_two_decimal_quantization (rows : List Row) (mp : List PEntry) :
    (∀ e : PEntry, e ∈ (parse_price_csv rows).1 ∨ e ∈ (parse_price_csv rows).2 →
      (∃ c, e.price = quantize2HE c) ∧ e.price.exp = 2) ∧
    (∀ e : FEntry, e ∈ calculate_fridge_magnet_pricing mp →
      (∃ b, e.price = quantize2HU (dmul b fridgeMultiplier)) ∧ e.price.exp = 2) := by
  constructor
  · intro e he
    obtain ⟨c, hc⟩ := parseRows_price_shape rows none e he
    exact ⟨⟨c, hc⟩, by rw [hc]; exact quantize2HE_exp c⟩
  · intro e he
    obtain ⟨fs, bs, m, qp, _, _, _, he⟩ :=
      (mem_calcFridgeAux (groupMagnets mp) size_mapping e).mp he
    refine ⟨⟨qp.2, by rw [he]⟩, ?_⟩
    rw [he]
    exact quantize2HU_exp _

/-- Witness for the amended C3 at a concrete parsed cell and a concrete
derived fridge entry. -/
theorem C3_witness :
    ((∃ c, (Dec.mk 100 2) = quantize2HE c) ∧ (Dec.mk 100 2).exp = 2) ∧
    ((∃ b, (Dec.mk 143 2) = quantize2HU (dmul b fridgeMultiplier)) ∧ (Dec.mk 143 2).exp = 2) :=
  ⟨(C3_amended_two_decimal_quantization cxRows cxMagnets).1 ⟨"3x3", 12, ⟨100, 2⟩⟩
      (Or.inl (by decide)),
   (C3_amended_two_decimal_quantization cxRows cxMagnets).2 ⟨"2x3", 50, ⟨143, 2⟩⟩
      (by decide)⟩

/-- A successful dictionary lookup comes from a pair of the list. -/
theorem lookupQ_mem (m : List (ℕ × Dec)) (k : ℕ) (v : Dec)
    (h : lookupQ m k = some v) : (k, v) ∈ m := by
  induction m with
  | nil => cases h
  | cons p rest ih =>
    rcases p with ⟨k', v'⟩
    rw [lookupQ] at h
    split_ifs at h with hk
    · injection h with hv
      subst hv
      subst hk
      exact List.mem_cons_self _ _
    · exact List.mem_cons_of_mem _ (ih h)

/-- In a well-formed dictionary, membership determines the lookup result. -/
theorem mem_lookupQ_of_wf (m : List (ℕ × Dec)) (k : ℕ) (v : Dec)
    (hwf : wfQ m) (h : (k, v) ∈ m) : lookupQ m k = some v := by
  induction m with
  | nil => cases h
  | cons p rest ih =>
    rcases p with ⟨k', v'⟩
    simp only [wfQ, List.map_cons, List.nodup_cons] at hwf
    rcases List.mem_cons.mp h with heq | hm
    · rw [lookupQ]
      obtain ⟨h1, h2⟩ := Prod.mk.injEq k v k' v' ▸ heq
      rw [if_pos h1.symm, h2]
    · have hk : k' ≠ k := by
        intro he
        subst he
        exact hwf.1 (List.mem_map.mpr ⟨(k', v), hm, rfl⟩)
      rw [lookupQ, if_neg hk]
      exact ih hwf.2 hm

/-- Updating a dictionary introduces no key other than the updated one. -/
theorem updQ_keys_subset (m : List (ℕ × Dec)) (k : ℕ) (v : Dec) :
    ∀ a ∈ (updQ m k v).map Prod.fst, a ∈ m.map Prod.fst ∨ a = k := by
  induction m with
  | nil => intro a ha; simp [updQ] at ha; exact Or.inr ha
  | cons p rest ih =>
    rcases p with ⟨k', v'⟩
    intro a ha
    rw [updQ] at ha
    split_ifs at ha with hk
    · simp only [List.map_cons, List.mem_cons] at ha ⊢
      rcases ha with ha | ha
      · exact Or.inl (Or.inl ha)
      · exact Or.inl (Or.inr ha)
    · simp only [List.map_cons, List.mem_cons] at ha ⊢
      rcases ha with ha | ha
      · exact Or.inl (Or.inl ha)
      · rcases ih a ha with h | h
        · exact Or.inl (Or.inr h)
        · exact Or.inr h

/-- Dictionary update preserves distinctness of keys. -/
theorem wfQ_updQ (m : List (ℕ × Dec)) (k : ℕ) (v : Dec) (h : wfQ m) :
    wfQ (updQ m k v) := by
  induction m with
  | nil => simp [updQ, wfQ]
  | cons p rest ih =>
    rcases p with ⟨k', v'⟩
    simp only [wfQ, List.map_cons, List.nodup_cons] at h
    rw [updQ]
    split_ifs with hk
    · simpa [wfQ, List.nodup_cons] using h
    · simp only [wfQ, List.map_cons, List.nodup_cons]
      refine ⟨?_, ih h.2⟩
      intro hmem
      rcases updQ_keys_subset rest k v k' hmem with h' | h'
      · exact h.1 h'
      · exact hk h'

/-- Inserting an entry introduces no outer key other than the entry's size. -/
theorem addToGroup_keys_subset (g : List (String × List (ℕ × Dec))) (e : PEntry) :
    ∀ a ∈ (addToGroup g e).map Prod.fst, a ∈ g.map Prod.fst ∨ a = e.size := by
  induction g with
  | nil => intro a ha; simp [addToGroup] at ha; exact Or.inr ha
  | cons p rest ih =>
    rcases p with ⟨s, m⟩
    intro a ha
    rw [addToGroup] at ha
    split_ifs at ha with hs
    · simp only [List.map_cons, List.mem_cons] at ha ⊢
      rcases ha with ha | ha
      · exact Or.inl (Or.inl ha)
      · exact Or.inl (Or.inr ha)
    · simp only [List.map_cons, List.mem_cons] at ha ⊢
      rcases ha with ha | ha
      · exact Or.inl (Or.inl ha)
      · rcases ih a ha with h | h
        · exact Or.inl (Or.inr h)
        · exact Or.inr h

/-- Inserting one entry preserves dictionary well-formedness. -/
theorem wfG_addToGroup (g : List (String × List (ℕ × Dec))) (e : PEntry)
    (h : wfG g) : wfG (addToGroup g e) := by
  induction g with
  | nil =>
    refine ⟨by simp [addToGroup], ?_⟩
    intro p hp
    simp only [addToGroup, List.mem_singleton] at hp
    subst hp
    simp [wfQ]
  | cons p rest ih =>
    rcases p with ⟨s, m⟩
    obtain ⟨hnd, hins⟩ := h
    simp only [List.map_cons, List.nodup_cons] at hnd
    rw [addToGroup]
    split_ifs with hs
    · refine ⟨by simpa [List.nodup_cons] using hnd, ?_⟩
      intro p hp
      rcases List.mem_cons.mp hp with heq | hm
      · subst heq
        exact wfQ_updQ m e.quantity e.price (hins ⟨s, m⟩ (List.mem_cons_self _ _))
      · exact hins p (List.mem_cons_of_mem _ hm)
    · have hrest : wfG rest :=
        ⟨hnd.2, fun p hp => hins p (List.mem_cons_of_mem _ hp)⟩
      obtain ⟨ih1, ih2⟩ := ih hrest
      refine ⟨?_, ?_⟩
      · simp only [List.map_cons, List.nodup_cons]
        refine ⟨?_, ih1⟩
        intro hmem
        rcases addToGroup_keys_subset rest e s hmem with h' | h'
        · exact hnd.1 h'
        · exact hs h'
      · intro p hp
        rcases List.mem_cons.mp hp with heq | hm
        · subst heq
          exact hins ⟨s, m⟩ (List.mem_cons_self _ _)
        · exact ih2 p hm

/-- The grouping fold preserves well-formedness. -/
theorem wfG_foldl (l : List PEntry) (g : List (String × List (ℕ × Dec)))
    (h : wfG g) : wfG (l.foldl addToGroup g) := by
  induction l generalizing g with
  | nil => exact h
  | cons e rest ih => exact ih _ (wfG_addToGroup g e h)

/-- `magnet_by_size` is a well-formed dictionary of dictionaries. -/
theorem groupMagnets_wf (l : List PEntry) : wfG (groupMagnets l) :=
  wfG_foldl l [] ⟨List.nodup_nil, by simp⟩

/-- A successful outer lookup comes from a pair of the grouped list. -/
theorem lookupG_mem (g : List (String × List (ℕ × Dec))) (s : String)
    (m : List (ℕ × Dec)) (h : lookupG g s = some m) : (s, m) ∈ g := by
  induction g with
  | nil => cases h
  | cons p rest ih =>
    rcases p with ⟨s', m'⟩
    rw [lookupG] at h
    split_ifs at h with hs
    · injection h with hm
      subst hm
      subst hs
      exact List.mem_cons_self _ _
    · exact List.mem_cons_of_mem _ (ih h)

/-- C1: for every fridge size of the static mapping whose base magnet size
carries a price `P` at some quantity, the derived fridge table stores at
that (size, quantity) exactly the price
`round_half_up(P * (1 + 0.15), 2)`; e.g. a base price of `1.24` derives
`1.43`. -/
theorem C1_fridge_markup_price (mp : List PEntry) (fs bs : String) (q : ℕ) (P : Dec)
    (m : List (ℕ × Dec))
    (hmap : (fs, bs) ∈ size_mapping)
    (hg : lookupG (groupMagnets mp) bs = some m)
    (hq : lookupQ m q = some P) :
    fridgePriceAt (calculate_fridge_magnet_pricing mp) fs q =
      some (quantize2HU (dmul P fridgeMultiplier)) := by
  have hwf : wfG (groupMagnets mp) := groupMagnets_wf mp
  have hwfm : wfQ m := hwf.2 (bs, m) (lookupG_mem _ _ _ hg)
  have hmem : (⟨fs, q, quantize2HU (dmul P fridgeMultiplier)⟩ : FEntry) ∈
      calculate_fridge_magnet_pricing mp :=
    (mem_calcFridgeAux _ _ _).mpr ⟨fs, bs, m, (q, P), hmap, hg, lookupQ_mem m q P hq, rfl⟩
  have huniq : ∀ e ∈ calculate_fridge_magnet_pricing mp,
      (e.productSize = fs && e.quantity = q) = true →
      e = (⟨fs, q, quantize2HU (dmul P fridgeMultiplier)⟩ : FEntry) := by
    intro e he hp
    obtain ⟨fs', bs', m', qp, hmap', hg', hqp, he'⟩ := (mem_calcFridgeAux _ _ _).mp he
    simp only [Bool.and_eq_true, decide_eq_true_eq] at hp
    obtain ⟨hpfs, hpq⟩ := hp
    subst he'
    simp only at hpfs hpq
    subst hpfs
    have hbs : bs' = bs := by
      simp only [size_mapping, List.mem_cons, List.mem_singleton,
        Prod.mk.injEq] at hmap hmap'
      rcases hmap with ⟨h1, h2⟩ | ⟨h1, h2⟩ | ⟨h1, h2⟩ | ⟨h1, h2⟩ <;>
        rcases hmap' with ⟨g1, g2⟩ | ⟨g1, g2⟩ | ⟨g1, g2⟩ | ⟨g1, g2⟩ <;> simp_all
    subst hbs
    rw [hg] at hg'
    injection hg' with hm'
    subst hm'
    have hlq : lookupQ m qp.1 = some qp.2 := mem_lookupQ_of_wf m qp.1 qp.2 hwfm hqp
    rw [hpq, hq] at hlq
    injection hlq with hP
    rw [hpq, hP]
  unfold fridgePriceAt
  rw [find?_eq_of_mem_unique _ _ _ hmem (by simp) huniq]
  rfl

/-- Witness for C1: base price `1.24` at `3x3`, quantity 50 derives `1.43`
for fridge size `2x3`. -/
theorem C1_witness :
    fridgePriceAt (calculate_fridge_magnet_pricing cxMagnets) "2x3" 50 = some ⟨143, 2⟩ := by
  have h := C1_fridge_markup_price cxMagnets "2x3" "3x3" 50 ⟨124, 2⟩ [(50, ⟨124, 2⟩)]
    (by decide) (by decide) (by decide)
  rw [h]
  decide

/-- C4 (counterexample): re-running the reconciler on a stored order that
carried a `previewUrl` changes the record — the resolved
`artworkPreviewUrl` is lost — so the reconciliation is not idempotent as
claimed. -/
theorem C4_counterexample :
    prepare_order_record "G" "T" (orderOutToBody (prepare_order_record "G" "T" cxPreviewBody)) ≠
      prepare_order_record "G" "T" cxPreviewBody := by
  decide

/-- C4 (amended): applying the reconciler a second time (same generated id
and timestamp) to a stored order reproduces it exactly except for the three
alias-resolved URL item fields (`artworkPreviewUrl`, `artworkHttpsUrl`,
`previewHttpsUrl`), which are reset to `""` because the stored item does not
carry the alias keys the reconciler reads (`previewUrl`, `previewImageUrl`,
`previewUrlHttps`, `artworkUrlHttps`); every other resolved field — customer
name, street, artwork source URL, prices, totals — is unchanged. -/
theorem C4_amended_idempotent_except_alias_urls (genId nowIso : String) (b : BodyIn) :
    prepare_order_record genId nowIso (orderOutToBody (prepare_order_record genId nowIso b)) =
      { prepare_order_record genId nowIso b with
        items := (prepare_order_record genId nowIso b).items.map clearAliasUrls } := by
  simp only [prepare_order_record, orderOutToBody, addrOutToIn, resolveAddr,
    Option.getD_some, Option.getD_none, List.map_map]
  rw [show (processItem ∘ itemOutToIn ∘ processItem) = (clearAliasUrls ∘ processItem) from
    funext fun _ => rfl]
  simp only [List.foldl_map, truthyOr_restore, truthyOr_some_empty]
  rfl

end StickerLab
